import Mathlib

/-!
Shallow embedding of the scheduler core of universonic/CMDB
(`src/server/scheduler/server.go`, `src/server/scheduler/handler.go`)
together with the watch-event data model
(`shared/storage/generic`, seen in `src/unnamed/part_000`).

Effects are made explicit: the storage backend, the JSON decoder and the
random source are parameters (they are external collaborators), the
select-based main loop is a step function over an input trace, and the
observable side effects of `Serve` (watchers opened and closed, timer
stopped, completion subscribers notified) are collected in a result record.
-/

namespace CMDB

/-- WatchEventType constant CREATE = 0x01 (byte flag, from generic storage). -/
def CREATE : Nat := 1

/-- WatchEventType constant UPDATE = 0x02. -/
def UPDATE : Nat := 2

/-- WatchEventType constant DELETE = 0x04. -/
def DELETE : Nat := 4

/-- WatchEventType constant ERROR = 0x08. -/
def ERROR : Nat := 8

/-- WatchEvent: a change notification sent by Storage
(`Type`, `Kind`, `Key`, `Value` bytes). -/
structure WatchEvent where
  type : Nat
  kind : String
  key : String
  value : List Nat
deriving DecidableEq

/-- MachineDigest: the snapshot object handled by the scheduler. Its concrete
fields live outside `src/`; only the globally unique identifier exposed by the
`Object` interface (`GetGUID`) is needed here. -/
structure MachineDigest where
  guid : String
deriving DecidableEq

/-- Modelled from the spec: the discovered-machines singleton record and its
discovery `State` field (the concrete struct is outside `src/`; the spec gives
it a `State` whose observed value is "Started"). -/
structure DiscoveredMachines where
  state : String
deriving DecidableEq

/-- Modelled from the spec: `genericStorage.StartedState`, the observed
discovery-state value "Started". -/
def StartedState : String := "Started"

/-- An error returned by a storage `Watch` call. -/
abbrev WatchErr := String

/-- `rand.Intn r n`: Go's `rand.Intn(n)` yields a value in `[0, n)` and panics
when `n ≤ 0`; `r` stands for the state of the (re-seeded) random source, and
`none` models the panic. -/
def randIntn (r n : Nat) : Option Nat :=
  if n = 0 then none else some (r % n)

/-- Observable outcome of one event-triggered handler dispatch. -/
inductive HandlerOutcome (α : Type) where
  | droppedDecodeError
  | panicked
  | notified (execIdx : Nat) (obj : α)
deriving DecidableEq

/-- `Handler.refreshMachineSnapshotOnEvent`: unmarshal the event payload into a
fresh digest; on decode failure log and return; on success notify
`executor[rand.Intn(len(executor))]` with the digest. The executor pool is a
list of handles, `unmarshalDigest` stands for `json.Unmarshal` into a digest,
`r` for the random source. -/
def refreshMachineSnapshotOnEvent (exec : List Nat)
    (unmarshalDigest : List Nat → Option MachineDigest) (r : Nat)
    (event : WatchEvent) : HandlerOutcome MachineDigest :=
  match unmarshalDigest event.value with
  | none => .droppedDecodeError
  | some digest =>
    match randIntn r exec.length with
    | none => .panicked
    | some i => .notified i digest

/-- `Handler.refreshDicoveredMachinesOnEvent` (spelling as in the source):
same shape as the digest handler, for the discovered-machines payload and the
discovered-machines notify entry point. -/
def refreshDicoveredMachinesOnEvent (exec : List Nat)
    (unmarshalDisc : List Nat → Option DiscoveredMachines) (r : Nat)
    (event : WatchEvent) : HandlerOutcome DiscoveredMachines :=
  match unmarshalDisc event.value with
  | none => .droppedDecodeError
  | some latest =>
    match randIntn r exec.length with
    | none => .panicked
    | some i => .notified i latest

/-- Result of one storage Update/Create call, classified the way
`genericStorage.IsInternalError` classifies the failure. -/
inductive OpResult where
  | ok
  | err (internal : Bool)
deriving DecidableEq

/-- Final outcome of one `autoDiscoveryOnTime` run: success, or logged
abandonment after an internal error. -/
inductive DiscOutcome where
  | success
  | abandoned
deriving DecidableEq

/-- A storage call performed by `autoDiscoveryOnTime`, with its argument. -/
inductive StorageCall where
  | update (obj : DiscoveredMachines)
  | create (obj : DiscoveredMachines)
deriving DecidableEq

/-- The object `autoDiscoveryOnTime` upserts: a fresh discovered-machines
record with `State` set to `StartedState`. -/
def autoDiscoveryObject : DiscoveredMachines :=
  ⟨StartedState⟩

/-- The `RETRY` loop of `Handler.autoDiscoveryOnTime`, examining the most
recent error `cur`: nil terminates with success; an internal error is logged
and abandoned; a non-internal error falls back to `storage.Create` (whose
result for the k-th create call is `createRes k`) and re-examines. `fuel`
bounds how many create calls the model unrolls; the returned call list records
the creates performed and `none` as outcome means the loop was still spinning
when fuel ran out. -/
def discRetry (createRes : Nat → OpResult) :
    OpResult → Nat → Nat → List StorageCall × Option DiscOutcome
  | .ok, _, _ => ([], some .success)
  | .err true, _, _ => ([], some .abandoned)
  | .err false, _, 0 => ([], none)
  | .err false, k, fuel + 1 =>
      let res := discRetry createRes (createRes k) (k + 1) fuel
      (StorageCall.create autoDiscoveryObject :: res.1, res.2)

/-- `Handler.autoDiscoveryOnTime`: set the singleton's state to Started, call
`storage.Update` first (result `updateRes`), then run the retry loop. Returns
the trace of storage calls performed and the outcome. -/
def autoDiscoveryOnTime (updateRes : OpResult) (createRes : Nat → OpResult)
    (fuel : Nat) : List StorageCall × Option DiscOutcome :=
  let res := discRetry createRes updateRes 0 fuel
  (StorageCall.update autoDiscoveryObject :: res.1, res.2)

/-- The three watch subscriptions `Serve` opens at startup. -/
inductive WatcherId where
  | machine
  | digest
  | autoDisc
deriving DecidableEq

/-- How the main loop exited. -/
inductive ExitKind where
  | stopSignal
  | machineWatchError
  | digestWatchError
deriving DecidableEq

/-- One ready case of the `select` in the main loop: the stop channel, one of
the three watch-event channels, or the timer (whose firing carries the Schedule
Oracle's answer `sche.Next(now)` — `none` models `IsZero`, `some d` the
remaining duration `sche.Sub(now)` in nanoseconds). -/
inductive LoopInput where
  | stop
  | machineEvent (e : WatchEvent)
  | digestEvent (e : WatchEvent)
  | autoDiscEvent (e : WatchEvent)
  | timerFire (oracle : Option Nat)
deriving DecidableEq

/-- A goroutine dispatched by the main loop. -/
inductive Action where
  | refreshMachineSnapshot (e : WatchEvent)
  | refreshDicoveredMachines (e : WatchEvent)
  | createMachineDigest
  | autoDiscovery
deriving DecidableEq

/-- `time.Minute` in nanoseconds, the fixed revalidation timer duration. -/
def timeMinute : Nat := 60000000000

/-- Loop-private state: the `revalidate` flag and the duration the timer is
currently armed with. -/
structure LoopState where
  revalidate : Bool
  timer : Nat
deriving DecidableEq

/-- One iteration of the main loop of `Serve` on one ready input: the new
state, the goroutines dispatched this iteration, and `some kind` when this
iteration breaks out of the loop. -/
def serveStep (s : LoopState) : LoopInput → LoopState × List Action × Option ExitKind
  | .stop => (s, [], some .stopSignal)
  | .machineEvent e =>
      if e.type = DELETE then (s, [], none)
      else if e.type = ERROR then (s, [], some .machineWatchError)
      else (s, [], none)
  | .digestEvent e =>
      if e.type = CREATE then (s, [.refreshMachineSnapshot e], none)
      else if e.type = ERROR then (s, [], some .digestWatchError)
      else (s, [], none)
  | .autoDiscEvent e =>
      if e.type = CREATE ∨ e.type = UPDATE then (s, [.refreshDicoveredMachines e], none)
      else (s, [], none)
  | .timerFire o =>
      match o with
      | none => (⟨true, timeMinute⟩, [], none)
      | some d => (⟨false, d⟩, [.createMachineDigest, .autoDiscovery], none)

/-- Run the main loop over a finite trace of ready inputs, accumulating the
dispatched actions; the exit component is `none` when the trace was exhausted
with the loop still running. -/
def runLoop (s : LoopState) : List LoopInput → LoopState × List Action × Option ExitKind
  | [] => (s, [], none)
  | i :: rest =>
      let step := serveStep s i
      match step.2.2 with
      | some k => (step.1, step.2.1, some k)
      | none =>
          let res := runLoop step.1 rest
          (res.1, step.2.1 ++ res.2.1, res.2.2)

/-- Initial timer arming in `Serve`: if `sche.Next(now).IsZero()` set
`revalidate` and arm one minute, else arm for the remaining duration. -/
def serveInit (oracle0 : Option Nat) : LoopState :=
  match oracle0 with
  | none => ⟨true, timeMinute⟩
  | some d => ⟨false, d⟩

/-- Observable effects of one `Serve` call: the Go error returned, which
watchers were opened and which were closed before returning (in call order),
whether `timer.Stop()` ran, the completion subscribers notified (in order) and
the subscriber registry afterward, how the loop exited, and the goroutines
dispatched. -/
structure ServeResult where
  returned : Option WatchErr
  opened : List WatcherId
  closed : List WatcherId
  timerStopped : Bool
  notified : List Nat
  subsAfter : List Nat
  exitKind : Option ExitKind
  actions : List Action
deriving DecidableEq

/-- `Server.Serve`: open the three watch subscriptions in order (machine by
kind, digest by kind, discovered-machines by name; `wm`, `wd`, `wa` are the
respective `Watch` results, `some e` a failure), arm the timer from the
Schedule Oracle, run the loop over `trace`, and on exit stop the timer, close
`machineObserver` and `digestObserver`, and return nil. The deferred block
closes every channel in `clzSubCh` in registration order (`subs`) and
truncates the registry on every return path. `none` means `Serve` has not
returned (the trace ended with the loop still running). -/
def serve (subs : List Nat) (wm wd wa : Option WatchErr) (oracle0 : Option Nat)
    (trace : List LoopInput) : Option ServeResult :=
  match wm with
  | some e => some ⟨some e, [], [], false, subs, [], none, []⟩
  | none =>
  match wd with
  | some e => some ⟨some e, [.machine], [], false, subs, [], none, []⟩
  | none =>
  match wa with
  | some e => some ⟨some e, [.machine, .digest], [], false, subs, [], none, []⟩
  | none =>
    let run := runLoop (serveInit oracle0) trace
    match run.2.2 with
    | none => none
    | some k =>
        some ⟨none, [.machine, .digest, .autoDisc], [.machine, .digest], true,
          subs, [], some k, run.2.1⟩

/-- A concrete ERROR watch event, used as witness input. -/
def errEvent : WatchEvent :=
  ⟨ERROR, "machine_digest", "k", []⟩

/-- A concrete digest whose identifier is "m1", used as witness input. -/
def digestM1 : MachineDigest :=
  ⟨"m1"⟩

/-- A decoder that succeeds with `digestM1`, standing for a payload that is a
well-formed encoding of a digest with identifier "m1". -/
def unmarshalM1 : List Nat → Option MachineDigest :=
  fun _ => some digestM1

/-- A decoder that always fails, standing for a malformed payload. -/
def unmarshalDiscNone : List Nat → Option DiscoveredMachines :=
  fun _ => none

/-- A decoder that succeeds with the Started singleton record. -/
def unmarshalDiscSome : List Nat → Option DiscoveredMachines :=
  fun _ => some autoDiscoveryObject

/-- A concrete digest CREATE watch event, used as witness input. -/
def evtDigestCreate : WatchEvent :=
  ⟨CREATE, "machine_digest", "m1", []⟩

theorem discRetry_ok (c : Nat → OpResult) (k fuel : Nat) :
    discRetry c .ok k fuel = ([], some .success) := by
  cases fuel <;> rfl

theorem discRetry_internal (c : Nat → OpResult) (k fuel : Nat) :
    discRetry c (.err true) k fuel = ([], some .abandoned) := by
  cases fuel <;> rfl

theorem discRetry_spin (c : Nat → OpResult) (h : ∀ j, c j = .err false) :
    ∀ fuel k, (discRetry c (.err false) k fuel).2 = none := by
  intro fuel
  induction fuel with
  | zero => intro k; rfl
  | succ f ih =>
      intro k
      simp only [discRetry, h k]
      exact ih (k + 1)

theorem discRetry_chain (c : Nat → OpResult) :
    ∀ n k fuel, n < fuel → (∀ j, j < n → c (k + j) = .err false) →
      (c (k + n) = .ok →
        discRetry c (.err false) k fuel
          = (List.replicate (n + 1) (StorageCall.create autoDiscoveryObject),
             some .success))
      ∧ (c (k + n) = .err true →
        discRetry c (.err false) k fuel
          = (List.replicate (n + 1) (StorageCall.create autoDiscoveryObject),
             some .abandoned)) := by
  intro n
  induction n with
  | zero =>
      intro k fuel hfuel _
      obtain ⟨f, rfl⟩ : ∃ f, fuel = f + 1 := ⟨fuel - 1, by omega⟩
      constructor
      · intro hk
        rw [Nat.add_zero] at hk
        simp [discRetry, hk]
      · intro hk
        rw [Nat.add_zero] at hk
        simp [discRetry, hk]
  | succ n ih =>
      intro k fuel hfuel hpre
      obtain ⟨f, rfl⟩ : ∃ f, fuel = f + 1 := ⟨fuel - 1, by omega⟩
      have hk : c k = .err false := by
        have := hpre 0 (Nat.succ_pos n)
        rwa [Nat.add_zero] at this
      have hshift : ∀ j, j < n → c (k + 1 + j) = .err false := by
        intro j hj
        have := hpre (j + 1) (by omega)
        rwa [show k + (j + 1) = k + 1 + j by omega] at this
      have hih := ih (k + 1) f (by omega) hshift
      have hidx : k + (n + 1) = k + 1 + n := by omega
      constructor
      · intro hsucc
        rw [hidx] at hsucc
        have hres := hih.1 hsucc
        simp [discRetry, hk, hres, List.replicate_succ]
      · intro habn
        rw [hidx] at habn
        have hres := hih.2 habn
        simp [discRetry, hk, hres, List.replicate_succ]

theorem serveStep_periodic_only_timer (s : LoopState) (i : LoopInput)
    (a : Action) (ha : a = .createMachineDigest ∨ a = .autoDiscovery)
    (h : a ∈ (serveStep s i).2.1) : ∃ d, i = .timerFire (some d) := by
  cases i with
  | stop => simp [serveStep] at h
  | machineEvent e =>
      simp only [serveStep] at h
      split_ifs at h <;> simp at h
  | digestEvent e =>
      simp only [serveStep] at h
      split_ifs at h <;> simp at h
      subst h
      rcases ha with ha | ha <;> cases ha
  | autoDiscEvent e =>
      simp only [serveStep] at h
      split_ifs at h <;> simp at h
      subst h
      rcases ha with ha | ha <;> cases ha
  | timerFire o =>
      cases o with
      | none => simp [serveStep] at h
      | some d => exact ⟨d, rfl⟩

theorem runLoop_no_periodic (t : List LoopInput) :
    ∀ s, (∀ o, LoopInput.timerFire o ∈ t → o = none) →
      Action.createMachineDigest ∉ (runLoop s t).2.1
      ∧ Action.autoDiscovery ∉ (runLoop s t).2.1 := by
  induction t with
  | nil => intro s _; exact ⟨by simp [runLoop], by simp [runLoop]⟩
  | cons i rest ih =>
      intro s h
      have hstep : ∀ a, a = Action.createMachineDigest ∨ a = Action.autoDiscovery →
          a ∉ (serveStep s i).2.1 := by
        intro a ha hmem
        obtain ⟨d, rfl⟩ := serveStep_periodic_only_timer s i a ha hmem
        have := h (some d) (List.mem_cons_self _ _)
        cases this
      have hrest := ih (serveStep s i).1 (fun o ho => h o (List.mem_cons_of_mem _ ho))
      rcases hr : (serveStep s i).2.2 with _ | k
      · constructor
        · intro hmem
          simp only [runLoop, hr] at hmem
          rcases List.mem_append.mp hmem with hm | hm
          · exact hstep _ (Or.inl rfl) hm
          · exact hrest.1 hm
        · intro hmem
          simp only [runLoop, hr] at hmem
          rcases List.mem_append.mp hmem with hm | hm
          · exact hstep _ (Or.inr rfl) hm
          · exact hrest.2 hm
      · constructor
        · intro hmem
          simp only [runLoop, hr] at hmem
          exact hstep _ (Or.inl rfl) hmem
        · intro hmem
          simp only [runLoop, hr] at hmem
          exact hstep _ (Or.inr rfl) hmem

/-- Claim C1 (code bug): on exit of the main loop the code stops the timer but
closes only the machine-by-kind and digest-by-kind watchers; the
discovered-machines-by-name watcher opened at startup is absent from the
closed list, so not all three subscriptions are released. Evaluated at a
concrete run that exits via the stop signal. -/
theorem C1_exit_leaks_discovered_watcher :
    serve [] none none none (some 5) [LoopInput.stop]
      = some ⟨none, [.machine, .digest, .autoDisc], [.machine, .digest], true,
          [], [], some .stopSignal, []⟩
    ∧ WatcherId.autoDisc ∉ [WatcherId.machine, WatcherId.digest] :=
  ⟨rfl, by decide⟩

/-- Claim C2 (code bug): when the digest-kind watch establishment fails, Serve
returns the failure, but the machine-kind subscription already opened in this
attempt is left open — the closed list is empty on this return path. -/
theorem C2_establishment_failure_leaks_opened :
    ∃ r, serve [] none (some "digest watch failed") none none [] = some r
      ∧ r.returned = some "digest watch failed"
      ∧ r.opened = [WatcherId.machine]
      ∧ r.closed = [] :=
  ⟨_, rfl, rfl, rfl, rfl⟩

/-- Claim C3: the discovery action first attempts an Update marking the
singleton Started; Update success means no create; an internal failure is
abandoned at once; after a non-internal Update failure it keeps calling Create
while failures stay non-internal, stopping at the first success or internal
failure; and against all-non-internal failures it never terminates. -/
theorem C3_autoDiscovery_upsert (c : Nat → OpResult) (fuel : Nat) :
    (∀ u, (autoDiscoveryOnTime u c fuel).1.head?
        = some (StorageCall.update autoDiscoveryObject))
    ∧ autoDiscoveryObject.state = StartedState
    ∧ autoDiscoveryOnTime .ok c fuel
        = ([StorageCall.update autoDiscoveryObject], some .success)
    ∧ autoDiscoveryOnTime (.err true) c fuel
        = ([StorageCall.update autoDiscoveryObject], some .abandoned)
    ∧ (∀ n, n < fuel → (∀ j, j < n → c j = .err false) →
        (c n = .ok →
          autoDiscoveryOnTime (.err false) c fuel
            = (StorageCall.update autoDiscoveryObject
                :: List.replicate (n + 1) (StorageCall.create autoDiscoveryObject),
               some .success))
        ∧ (c n = .err true →
          autoDiscoveryOnTime (.err false) c fuel
            = (StorageCall.update autoDiscoveryObject
                :: List.replicate (n + 1) (StorageCall.create autoDiscoveryObject),
               some .abandoned))) := by
  refine ⟨fun u => rfl, rfl, by simp [autoDiscoveryOnTime, discRetry_ok],
    by simp [autoDiscoveryOnTime, discRetry_internal], ?_⟩
  intro n hn hpre
  have hpre0 : ∀ j, j < n → c (0 + j) = .err false := by
    intro j hj
    rw [Nat.zero_add]
    exact hpre j hj
  have h := discRetry_chain c n 0 fuel hn hpre0
  rw [Nat.zero_add] at h
  constructor
  · intro hk
    have := h.1 hk
    simp [autoDiscoveryOnTime, this]
  · intro hk
    have := h.2 hk
    simp [autoDiscoveryOnTime, this]

theorem C3_witness :
    autoDiscoveryOnTime .ok (fun _ => .err false) 7
      = ([StorageCall.update autoDiscoveryObject], some .success)
    ∧ autoDiscoveryOnTime (.err true) (fun _ => .err false) 7
      = ([StorageCall.update autoDiscoveryObject], some .abandoned) :=
  ⟨(C3_autoDiscovery_upsert (fun _ => .err false) 7).2.2.1,
   (C3_autoDiscovery_upsert (fun _ => .err false) 7).2.2.2.1⟩

/-- Claim C3 companion: the unbounded-retry aspect — if the Update failure and
every Create result are non-internal failures, the loop never terminates, for
any amount of fuel. (Part of the same spec sentence block as C3.) -/
theorem autoDiscovery_spins_forever (c : Nat → OpResult)
    (h : ∀ j, c j = .err false) (fuel : Nat) :
    (autoDiscoveryOnTime (.err false) c fuel).2 = none := by
  simp [autoDiscoveryOnTime, discRetry_spin c h fuel 0]

/-- Claim C4: an ERROR event on the machine-kind or digest-kind stream exits
the loop in that very iteration, while an ERROR event on the
discovered-by-name stream never exits the loop — over any trace made of such
events the loop keeps running. -/
theorem C4_watch_error_asymmetry (s : LoopState) (e : WatchEvent)
    (h : e.type = ERROR) :
    (serveStep s (.machineEvent e)).2.2 = some .machineWatchError
    ∧ (serveStep s (.digestEvent e)).2.2 = some .digestWatchError
    ∧ (serveStep s (.autoDiscEvent e)).2.2 = none
    ∧ ∀ t : List LoopInput,
        (∀ i ∈ t, ∃ e2, i = LoopInput.autoDiscEvent e2 ∧ e2.type = ERROR) →
        (runLoop s t).2.2 = none := by
  have h1 : (serveStep s (.machineEvent e)).2.2 = some .machineWatchError := by
    simp [serveStep, h, ERROR, DELETE]
  have h2 : (serveStep s (.digestEvent e)).2.2 = some .digestWatchError := by
    simp [serveStep, h, ERROR, CREATE]
  have h3 : (serveStep s (.autoDiscEvent e)).2.2 = none := by
    simp [serveStep, h, ERROR, CREATE, UPDATE]
  refine ⟨h1, h2, h3, ?_⟩
  intro t
  induction t with
  | nil => intro _; rfl
  | cons i rest ih =>
      intro ht
      obtain ⟨e2, rfl, he2⟩ := ht _ (List.mem_cons_self _ _)
      have hstep : serveStep s (.autoDiscEvent e2) = (s, [], none) := by
        simp [serveStep, he2, ERROR, CREATE, UPDATE]
      simp only [runLoop, hstep]
      exact ih (fun j hj => ht j (List.mem_cons_of_mem _ hj))

theorem C4_witness :
    (serveStep ⟨false, 0⟩ (LoopInput.machineEvent errEvent)).2.2
      = some .machineWatchError
    ∧ (serveStep ⟨false, 0⟩ (LoopInput.digestEvent errEvent)).2.2
      = some .digestWatchError
    ∧ (serveStep ⟨false, 0⟩ (LoopInput.autoDiscEvent errEvent)).2.2 = none
    ∧ (runLoop ⟨false, 0⟩ [LoopInput.autoDiscEvent errEvent]).2.2 = none := by
  have h := C4_watch_error_asymmetry ⟨false, 0⟩ errEvent rfl
  refine ⟨h.1, h.2.1, h.2.2.1, h.2.2.2 [LoopInput.autoDiscEvent errEvent] ?_⟩
  intro i hi
  rw [List.mem_singleton] at hi
  subst hi
  exact ⟨errEvent, rfl, rfl⟩

/-- Claim C5: on a timer expiry where the Schedule Oracle returns a concrete
next activation `d`, the loop dispatches exactly the two periodic actions
(digest creation then the discovery sweep) and rearms the timer for `d`. -/
theorem C5_timer_tick_dispatch (s : LoopState) (d : Nat) :
    serveStep s (.timerFire (some d))
      = (⟨false, d⟩, [Action.createMachineDigest, Action.autoDiscovery], none)
    ∧ [Action.createMachineDigest, Action.autoDiscovery].length = 2 :=
  ⟨rfl, rfl⟩

/-- Claim C6: when the Schedule Oracle answers indefinite on every query, the
initial arming and every timer-expiry step arm the fixed one-minute
revalidation timer, and no run over such a trace ever dispatches either
periodic action. -/
theorem C6_indefinite_never_dispatches (s : LoopState) (t : List LoopInput)
    (h : ∀ o, LoopInput.timerFire o ∈ t → o = none) :
    serveInit none = ⟨true, timeMinute⟩
    ∧ serveStep s (.timerFire none) = (⟨true, timeMinute⟩, [], none)
    ∧ Action.createMachineDigest ∉ (runLoop s t).2.1
    ∧ Action.autoDiscovery ∉ (runLoop s t).2.1 := by
  have hrun := runLoop_no_periodic t s h
  exact ⟨rfl, rfl, hrun.1, hrun.2⟩

theorem C6_witness :
    serveStep ⟨false, 3⟩ (LoopInput.timerFire none)
      = (⟨true, timeMinute⟩, [], none)
    ∧ Action.createMachineDigest
        ∉ (runLoop ⟨false, 3⟩ [LoopInput.timerFire none, LoopInput.stop]).2.1 := by
  have h := C6_indefinite_never_dispatches ⟨false, 3⟩
    [LoopInput.timerFire none, LoopInput.stop] ?_
  · exact ⟨h.2.1, h.2.2.1⟩
  · intro o ho
    rcases List.mem_cons.mp ho with h1 | h1
    · injection h1
    · rw [List.mem_singleton] at h1
      injection h1

/-- Claim C7: a watch event whose payload fails to decode is dropped (decode
error, no executor notified); a decoding payload leads to exactly one notify
call, to an in-bounds executor of the registered pool, carrying the decoded
object — for digest events and discovered-machines events alike. -/
theorem C7_decode_and_dispatch (exec : List Nat) (hne : exec ≠ [])
    (decD : List Nat → Option MachineDigest)
    (decM : List Nat → Option DiscoveredMachines)
    (r : Nat) (e : WatchEvent) :
    (decD e.value = none →
      refreshMachineSnapshotOnEvent exec decD r e = .droppedDecodeError)
    ∧ (∀ d, decD e.value = some d → ∃ i, i < exec.length ∧
        refreshMachineSnapshotOnEvent exec decD r e = .notified i d)
    ∧ (decM e.value = none →
      refreshDicoveredMachinesOnEvent exec decM r e = .droppedDecodeError)
    ∧ (∀ m, decM e.value = some m → ∃ i, i < exec.length ∧
        refreshDicoveredMachinesOnEvent exec decM r e = .notified i m) := by
  have hpos : 0 < exec.length := List.length_pos.mpr hne
  have hrand : randIntn r exec.length = some (r % exec.length) := by
    simp [randIntn, Nat.pos_iff_ne_zero.mp hpos]
  refine ⟨?_, ?_, ?_, ?_⟩
  · intro hd; simp [refreshMachineSnapshotOnEvent, hd]
  · intro d hd
    exact ⟨r % exec.length, Nat.mod_lt r hpos,
      by simp [refreshMachineSnapshotOnEvent, hd, hrand]⟩
  · intro hm; simp [refreshDicoveredMachinesOnEvent, hm]
  · intro m hm
    exact ⟨r % exec.length, Nat.mod_lt r hpos,
      by simp [refreshDicoveredMachinesOnEvent, hm, hrand]⟩

theorem C7_witness :
    (∃ i, i < List.length [7] ∧
      refreshMachineSnapshotOnEvent [7] unmarshalM1 0 evtDigestCreate
        = .notified i digestM1)
    ∧ digestM1.guid = "m1"
    ∧ refreshDicoveredMachinesOnEvent [7] unmarshalDiscNone 0 evtDigestCreate
        = .droppedDecodeError :=
  ⟨(C7_decode_and_dispatch [7] (by simp) unmarshalM1 unmarshalDiscNone 0
      evtDigestCreate).2.1 digestM1 rfl,
   rfl,
   (C7_decode_and_dispatch [7] (by simp) unmarshalM1 unmarshalDiscNone 0
      evtDigestCreate).2.2.1 rfl⟩

/-- Claim C8: whenever Serve returns after the loop ran (establishment
succeeded), every subscriber handle is notified exactly once, in registration
order, and the subscriber registry is empty afterward. -/
theorem C8_subscribers_notified_once (subs : List Nat) (o0 : Option Nat)
    (t : List LoopInput) (r : ServeResult)
    (h : serve subs none none none o0 t = some r) :
    r.notified = subs ∧ r.subsAfter = []
    ∧ (subs.Nodup → ∀ x ∈ subs, r.notified.count x = 1) := by
  simp only [serve] at h
  rcases hr : (runLoop (serveInit o0) t).2.2 with _ | k
  · rw [hr] at h; cases h
  · rw [hr] at h
    cases h
    refine ⟨rfl, rfl, ?_⟩
    intro hnd x hx
    exact List.count_eq_one_of_mem hnd hx

theorem C8_witness :
    ∃ r, serve [1, 2] none none none (some 4) [LoopInput.stop] = some r
      ∧ r.notified = [1, 2] ∧ r.subsAfter = [] ∧ r.notified.count 2 = 1 := by
  refine ⟨_, rfl, ?_⟩
  have h := C8_subscribers_notified_once [1, 2] (some 4) [LoopInput.stop] _ rfl
  exact ⟨h.1, h.2.1, h.2.2 (by decide) 2 (by decide)⟩

/-- Claim C9: once the three subscriptions are established, Serve returns nil
no matter how the loop exits — the graceful stop signal and a fatal watch
error on the machine-kind or digest-kind stream yield the same success
indication. -/
theorem C9_nil_on_any_exit (subs : List Nat) (o0 : Option Nat)
    (t : List LoopInput) (r : ServeResult)
    (h : serve subs none none none o0 t = some r) :
    r.returned = none := by
  simp only [serve] at h
  rcases hr : (runLoop (serveInit o0) t).2.2 with _ | k
  · rw [hr] at h; cases h
  · rw [hr] at h
    cases h
    rfl

theorem C9_witness :
    (∃ r, serve [] none none none (some 1) [LoopInput.stop] = some r
      ∧ r.returned = none ∧ r.exitKind = some .stopSignal)
    ∧ (∃ r2, serve [] none none none (some 1) [LoopInput.digestEvent errEvent]
          = some r2
      ∧ r2.returned = none ∧ r2.exitKind = some .digestWatchError) :=
  ⟨⟨_, rfl, C9_nil_on_any_exit [] (some 1) [LoopInput.stop] _ rfl, rfl⟩,
   ⟨_, rfl,
    C9_nil_on_any_exit [] (some 1) [LoopInput.digestEvent errEvent] _ rfl, rfl⟩⟩

/-- Claim C10: after a successful decode, the selected index
`rand.Intn(len(executor))` is within the executor slice bounds exactly when
the pool is non-empty; with an empty pool the dispatched task panics instead
of failing gracefully — for both event handlers. -/
theorem C10_executor_pool_bounds (exec : List Nat)
    (decD : List Nat → Option MachineDigest)
    (decM : List Nat → Option DiscoveredMachines)
    (r : Nat) (e : WatchEvent) (d : MachineDigest) (m : DiscoveredMachines)
    (hd : decD e.value = some d) (hm : decM e.value = some m) :
    (exec ≠ [] → ∃ i, i < exec.length ∧
        refreshMachineSnapshotOnEvent exec decD r e = .notified i d)
    ∧ refreshMachineSnapshotOnEvent [] decD r e = .panicked
    ∧ (exec ≠ [] → ∃ i, i < exec.length ∧
        refreshDicoveredMachinesOnEvent exec decM r e = .notified i m)
    ∧ refreshDicoveredMachinesOnEvent [] decM r e = .panicked := by
  refine ⟨?_, ?_, ?_, ?_⟩
  · intro hne
    have hpos : 0 < exec.length := List.length_pos.mpr hne
    refine ⟨r % exec.length, Nat.mod_lt r hpos, ?_⟩
    simp [refreshMachineSnapshotOnEvent, hd, randIntn,
      Nat.pos_iff_ne_zero.mp hpos]
  · simp [refreshMachineSnapshotOnEvent, hd, randIntn]
  · intro hne
    have hpos : 0 < exec.length := List.length_pos.mpr hne
    refine ⟨r % exec.length, Nat.mod_lt r hpos, ?_⟩
    simp [refreshDicoveredMachinesOnEvent, hm, randIntn,
      Nat.pos_iff_ne_zero.mp hpos]
  · simp [refreshDicoveredMachinesOnEvent, hm, randIntn]

theorem C10_witness :
    refreshMachineSnapshotOnEvent [] unmarshalM1 0 evtDigestCreate = .panicked
    ∧ (∃ i, i < List.length [7] ∧
        refreshMachineSnapshotOnEvent [7] unmarshalM1 0 evtDigestCreate
          = .notified i digestM1) :=
  ⟨(C10_executor_pool_bounds [] unmarshalM1 unmarshalDiscSome 0 evtDigestCreate
      digestM1 autoDiscoveryObject rfl rfl).2.1,
   (C10_executor_pool_bounds [7] unmarshalM1 unmarshalDiscSome 0 evtDigestCreate
      digestM1 autoDiscoveryObject rfl rfl).1 (by simp)⟩

end CMDB
